import Mathlib

/-!
Verification development for the ojjson schema-constrained generation engine
(`mod.ts`, class `OjjsonGenerator`).

The TypeScript source is shallowly embedded as follows.

* `Message` embeds the chat message record `{role, content}`.
* `ZodIssue` embeds the shape of zod validation issues that
  `OjjsonGenerator.#getErrorMessage` inspects: it branches on
  `error.code == "invalid_union"` (iterating `unionErrors[].errors[]`,
  inside which it branches on `err.code == "invalid_type"` to use
  `err.received` / `err.expected`) and otherwise prints
  `* path: message`.
* `extractJson` embeds `OjjsonGenerator.#extractJson` together with the
  JavaScript semantics of `String.prototype.indexOf`, `lastIndexOf`
  (returning -1 when absent) and `substring` (clamping both arguments to
  `[0, length]` and swapping them when out of order).
* `addMessagePair` embeds `OjjsonGenerator.addMessagePair`: push the pair,
  then `shift()` once when the length exceeds `maxMessages`.
* `generate` / `fixLoop` embed `OjjsonGenerator.generate`.  The backend
  adapter is a function from the call index to either a transport error or
  a reply; JSON.parse and `this.output.parse` are parameters of `GenConfig`
  (`jsonParse` returning `none` models JSON.parse throwing a SyntaxError,
  which is not a `zod.ZodError`).  The state carries the mutable
  `previousMessages` buffer and the trace of message lists sent to the
  adapter (its length is the number of chat calls issued).
-/

/-- A chat message `{role, content}`; roles in the source are plain strings
("user" / "system"). -/
structure Message where
  role : String
  content : String
deriving DecidableEq, Repr

/-- The fragment of zod's issue datatype that `#getErrorMessage` consumes.
`invalidType` carries `path`, `received`, `expected`, `message`;
`invalidUnion` carries the branch errors (`unionErrors[].errors[]`);
`otherIssue` is any other issue code, of which only `path` and `message`
are read. -/
inductive ZodIssue where
  | invalidType (path : List String) (received : String) (expected : String) (message : String)
  | invalidUnion (path : List String) (unionErrors : List (List ZodIssue)) (message : String)
  | otherIssue (path : List String) (message : String)

/-- A zod error is its list of issues (`exception.errors`). -/
abbrev ZodErrorT := List ZodIssue

/-- Index of the first occurrence of `c`, as JavaScript `String.indexOf`
computes it (before the -1 encoding). -/
def firstIndexOf : List Char → Char → Option Nat
  | [], _ => none
  | c :: cs, t => if c = t then some 0 else Option.map Nat.succ (firstIndexOf cs t)

/-- Index of the last occurrence of `c` (JavaScript `String.lastIndexOf`
before the -1 encoding), computed through the reversed list. -/
def lastIndexOf (s : List Char) (c : Char) : Option Nat :=
  Option.map (fun i => s.length - 1 - i) (firstIndexOf s.reverse c)

/-- JavaScript `String.indexOf`: the first index, or -1 when absent. -/
def jsIndexOf (s : List Char) (c : Char) : Int :=
  match firstIndexOf s c with
  | some i => (i : Int)
  | none => -1

/-- JavaScript `String.lastIndexOf`: the last index, or -1 when absent. -/
def jsLastIndexOf (s : List Char) (c : Char) : Int :=
  match lastIndexOf s c with
  | some i => (i : Int)
  | none => -1

/-- JavaScript's clamping of a `substring` argument into `[0, n]`
(negative values to 0, values above the length to the length). -/
def clampIdx (x : Int) (n : Nat) : Nat := min x.toNat n

/-- JavaScript `String.prototype.substring(a, b)`: clamp both indices to
`[0, length]`, swap if out of order, take the half-open range. -/
def jsSubstring (s : List Char) (a b : Int) : List Char :=
  let a' := clampIdx a s.length
  let b' := clampIdx b s.length
  let lo := min a' b'
  let hi := max a' b'
  (s.drop lo).take (hi - lo)

/-- `OjjsonGenerator.#extractJson` on character lists:
`str.substring(str.indexOf("\x7b"), str.lastIndexOf("\x7d") + 1)`. -/
def extractJsonChars (s : List Char) : List Char :=
  jsSubstring s (jsIndexOf s '{') (jsLastIndexOf s '}' + 1)

/-- `OjjsonGenerator.#extractJson` on strings. -/
def extractJson (s : String) : String :=
  String.mk (extractJsonChars s.data)

/-- `error.path.join(".")`. -/
def pathJoin (p : List String) : String := String.intercalate "." p

/-- The line `#getErrorMessage` emits for one issue found inside
`unionErrors[].errors[]`: `invalid_type` issues use the
`Received ... but expected ...` wording, every other code falls to
`* path: message`. -/
def unionLine (err : ZodIssue) : String :=
  match err with
  | .invalidType path received expected message =>
      "* " ++ pathJoin path ++ ": Received " ++ received ++ " but expected " ++
        expected ++ ", " ++ message ++ "\n"
  | .invalidUnion path _ message => "* " ++ pathJoin path ++ ": " ++ message ++ "\n"
  | .otherIssue path message => "* " ++ pathJoin path ++ ": " ++ message ++ "\n"

/-- `OjjsonGenerator.#getErrorMessage`: fold over `exception.errors`;
`invalid_union` issues are flattened through `unionErrors[].errors[]`
with `unionLine`, every other issue prints `* path: message`. -/
def getErrorMessage (errors : ZodErrorT) : String :=
  errors.foldl (fun acc error =>
    match error with
    | .invalidUnion _ unionErrors _ =>
        unionErrors.foldl (fun acc2 unionError =>
          unionError.foldl (fun acc3 err => acc3 ++ unionLine err) acc2) acc
    | .invalidType path _ _ message =>
        acc ++ "* " ++ pathJoin path ++ ": " ++ message ++ "\n"
    | .otherIssue path message =>
        acc ++ "* " ++ pathJoin path ++ ": " ++ message ++ "\n") ""

/-- The fixed text appended between the two copies of the violation list in
`generate`'s repair prompt. -/
def fixHeader : String :=
  "The output you provided was invalid, please provide a valid output that matches the schema. Those issues occured:\n"

/-- The repair prompt that `generate` builds:
`fixPrompt = getErrorMessage(e); fixPrompt += header + fixPrompt`. -/
def mkFixPrompt (exception : ZodErrorT) : String :=
  let fixPrompt := getErrorMessage exception
  fixPrompt ++ (fixHeader ++ fixPrompt)

/-- The errors `generate` can throw: a `zod.ZodError` (rethrown on
exhaustion), the SyntaxError of `JSON.parse`, or an adapter/transport
error of type `ε` thrown by `adapter.chat`. -/
inductive GenError (ε : Type) where
  | zodErr (e : ZodErrorT)
  | parseErr
  | transportErr (t : ε)

/-- The per-instance parameters `generate` reads: `JSON.parse` (`none`
models a SyntaxError), `this.output.parse` (zod validation), the
`maxMessages` bound (`options.maxMessages ?? 10`), the composed prompt
text of `#getPromptText()`, and the flattened example messages. -/
structure GenConfig (Json Out ε : Type) where
  jsonParse : String → Option Json
  outputParse : Json → Except ZodErrorT Out
  maxMessages : Nat
  prompt : String
  examples : List Message

/-- The generator's mutable state: `this.previousMessages` plus the trace
of message lists sent to `adapter.chat` (one entry per chat call). -/
structure GenState where
  previousMessages : List (List Message)
  trace : List (List Message)
deriving Repr

/-- `OjjsonGenerator.addMessagePair`: push the pair, then `shift()` once
when the buffer length exceeds `maxMessages`. -/
def addMessagePair (maxMessages : Nat) (prev : List (List Message))
    (pair : List Message) : List (List Message) :=
  let pushed := prev ++ [pair]
  if maxMessages < pushed.length then pushed.drop 1 else pushed

/-- The message list of the initial chat call of one `generate` round:
examples, the prompt as a user turn, the explicit history or the flattened
buffer, and the serialized input as a user turn. -/
def initialMessages {Json Out ε : Type} (cfg : GenConfig Json Out ε)
    (inputStr : String) (explicitHistory : Option (List Message))
    (st : GenState) : List Message :=
  cfg.examples ++ [⟨"user", cfg.prompt⟩] ++
    (match explicitHistory with
     | some h => h
     | none => st.previousMessages.flatten) ++
    [⟨"user", inputStr⟩]

/-- The message list of one repair-loop chat call: examples, prompt,
input, the extracted rejected reply as a system turn, and the repair
prompt. -/
def fixMessages {Json Out ε : Type} (cfg : GenConfig Json Out ε)
    (inputStr : String) (exception : ZodErrorT) (response : Message) :
    List Message :=
  cfg.examples ++ [⟨"user", cfg.prompt⟩, ⟨"user", inputStr⟩,
    ⟨"system", extractJson response.content⟩,
    ⟨"user", mkFixPrompt exception⟩]

/-- Result of the repair loop: a validated output, exhaustion of
`fixTries`, or a transport error thrown by `adapter.chat` inside the
loop. -/
inductive FixResult (ε Out : Type) where
  | success (out : Out)
  | exhausted
  | transport (t : ε)

/-- The `for (let i = 0; i < fixTries; i++)` repair loop of `generate`.
Each iteration sends `fixMessages` (the prompt is rebuilt from the same
original `exception` every time), and on a reply that parses and
validates it appends the pair (serialized input, extracted ORIGINAL
rejected reply) to the buffer and succeeds; any parse or validation
failure of the reply falls to the next iteration (`catch { continue }`);
a transport error of `adapter.chat` escapes the loop. -/
def fixLoop {Json Out ε : Type} (cfg : GenConfig Json Out ε)
    (backend : Nat → Except ε Message) (inputStr : String)
    (exception : ZodErrorT) (response : Message) :
    Nat → GenState → FixResult ε Out × GenState
  | 0, st => (.exhausted, st)
  | n + 1, st =>
    let msgs := fixMessages cfg inputStr exception response
    let st1 : GenState := ⟨st.previousMessages, st.trace ++ [msgs]⟩
    match backend st.trace.length with
    | .error t => (.transport t, st1)
    | .ok retry =>
      match cfg.jsonParse (extractJson retry.content) with
      | none => fixLoop cfg backend inputStr exception response n st1
      | some j =>
        match cfg.outputParse j with
        | .error _ => fixLoop cfg backend inputStr exception response n st1
        | .ok out =>
          (.success out,
            ⟨addMessagePair cfg.maxMessages st1.previousMessages
              [⟨"user", inputStr⟩, ⟨"system", extractJson response.content⟩],
             st1.trace⟩)

/-- `OjjsonGenerator.generate(input, retries, fixTries, previousMessages?)`.
The initial chat call is made outside any try, so a transport error
propagates; then the reply is extracted, JSON-parsed (a parse failure is
a SyntaxError, not a `zod.ZodError`, and is rethrown by the
`else throw e` branch of the catch), and validated.  A validation
failure enters the repair loop; on exhaustion the call recurses with
`retries - 1` (dropping the explicit history argument) while
`retries > 0`, and otherwise rethrows the ORIGINAL exception `e` of this
round's initial reply. -/
def generate {Json Out ε : Type} (cfg : GenConfig Json Out ε)
    (backend : Nat → Except ε Message) (inputStr : String) (fixTries : Nat) :
    Nat → Option (List Message) → GenState →
      Except (GenError ε) Out × GenState
  | retries, explicitHistory, st =>
    let msgs := initialMessages cfg inputStr explicitHistory st
    let st1 : GenState := ⟨st.previousMessages, st.trace ++ [msgs]⟩
    match backend st.trace.length with
    | .error t => (.error (.transportErr t), st1)
    | .ok response =>
      match cfg.jsonParse (extractJson response.content) with
      | none => (.error .parseErr, st1)
      | some j =>
        match cfg.outputParse j with
        | .ok out =>
          (.ok out,
            ⟨addMessagePair cfg.maxMessages st1.previousMessages
              [⟨"user", inputStr⟩, response], st1.trace⟩)
        | .error exception =>
          match fixLoop cfg backend inputStr exception response fixTries st1 with
          | (.success out, st2) => (.ok out, st2)
          | (.transport t, st2) => (.error (.transportErr t), st2)
          | (.exhausted, st2) =>
            match retries with
            | r + 1 => generate cfg backend inputStr fixTries r none st2
            | 0 => (.error (.zodErr exception), st2)

/-! ### Helper lemmas about the extraction scan -/

theorem firstIndexOf_lt_length {s : List Char} {c : Char} {i : Nat}
    (h : firstIndexOf s c = some i) : i < s.length := by
  induction s generalizing i with
  | nil => simp [firstIndexOf] at h
  | cons a as ih =>
    simp only [firstIndexOf] at h
    split at h
    · simp at h
      simp only [List.length_cons]
      omega
    · cases hz : firstIndexOf as c with
      | none => rw [hz] at h; simp at h
      | some k =>
        rw [hz] at h
        simp at h
        have := ih hz
        simp
        omega

theorem firstIndexOf_eq_none {s : List Char} {c : Char} (h : c ∉ s) :
    firstIndexOf s c = none := by
  induction s with
  | nil => rfl
  | cons a as ih =>
    rw [List.mem_cons, not_or] at h
    have hne : ¬a = c := fun hac => h.1 hac.symm
    simp [firstIndexOf, hne, ih h.2]

theorem lastIndexOf_lt_length {s : List Char} {c : Char} {j : Nat}
    (h : lastIndexOf s c = some j) : j < s.length := by
  unfold lastIndexOf at h
  cases hz : firstIndexOf s.reverse c with
  | none => rw [hz] at h; simp at h
  | some k =>
    rw [hz] at h
    have hk := firstIndexOf_lt_length hz
    rw [List.length_reverse] at hk
    simp at h
    omega

/-- Claim C9: `#extractJson` returns the substring from the first brace
through the last closing brace inclusive; on the concrete reply of P3 it
yields the embedded JSON object, and with neither brace present it yields
the empty string without crashing (the function is total). -/
theorem ojjson_extract_claim :
    extractJson "chatter \x7b\"a\":1\x7d trailing" = "\x7b\"a\":1\x7d" ∧
    (∀ s : List Char, '{' ∉ s → '}' ∉ s → extractJsonChars s = []) ∧
    (∀ (s : List Char) (i j : Nat), firstIndexOf s '{' = some i →
      lastIndexOf s '}' = some j → i ≤ j →
      extractJsonChars s = (s.drop i).take (j + 1 - i)) := by
  refine ⟨rfl, ?_, ?_⟩
  · intro s h1 h2
    have e1 : firstIndexOf s '{' = none := firstIndexOf_eq_none h1
    have e2 : firstIndexOf s.reverse '}' = none :=
      firstIndexOf_eq_none (by simpa using h2)
    simp [extractJsonChars, jsIndexOf, jsLastIndexOf, lastIndexOf,
      jsSubstring, clampIdx, e1, e2]
  · intro s i j hf hl hij
    have hi : i < s.length := firstIndexOf_lt_length hf
    have hj : j < s.length := lastIndexOf_lt_length hl
    unfold extractJsonChars jsIndexOf jsLastIndexOf jsSubstring
    rw [hf, hl]
    have c1 : clampIdx ((i : Nat) : Int) s.length = i := by
      unfold clampIdx
      simp
      omega
    have c2 : clampIdx (((j : Nat) : Int) + 1) s.length = j + 1 := by
      unfold clampIdx
      have : (((j : Nat) : Int) + 1).toNat = j + 1 := by omega
      rw [this]
      omega
    simp only [c1, c2]
    have m1 : min i (j + 1) = i := by omega
    have m2 : max i (j + 1) = j + 1 := by omega
    rw [m1, m2]

/-- Witness for C9: the general conjuncts applied at concrete inputs. -/
theorem ojjson_extract_claim_witness :
    extractJsonChars ['n', 'o'] = [] ∧
    extractJsonChars ['a', '{', 'b', '}'] = ['{', 'b', '}'] := by
  constructor
  · exact ojjson_extract_claim.2.1 ['n', 'o'] (by decide) (by decide)
  · have h := ojjson_extract_claim.2.2 ['a', '{', 'b', '}'] 1 3
      (by decide) (by decide) (by decide)
    simpa using h

/-! ### Claim C5: wording of the correction message -/

set_option maxRecDepth 8192 in
/-- Counterexample to C5: the violation of P5 taken as a top-level issue
(an `invalid_type` with path `["age"]`, received `string`, expected
`number`, message `Expected number, received string`) is printed by the
else-branch of `#getErrorMessage` as `* age: Expected number, received
string`, so the correction message does NOT contain the literal substring
`age: Received string but expected number`. -/
theorem ojjson_repair_content_counterexample :
    ¬ ("age: Received string but expected number".data <:+:
        (mkFixPrompt [.invalidType ["age"] "string" "number"
          "Expected number, received string"]).data) := by
  decide

set_option maxRecDepth 8192 in
/-- Claim C5 (amended): the `Received string but expected number` wording
is produced only for `invalid_type` issues nested inside an
`invalid_union` violation; for such a violation at path `["age"]` the
correction message contains the literal substring
`age: Received string but expected number`, while the same violation at
top level is rendered as `age: Expected number, received string`. -/
theorem ojjson_repair_content_claim :
    ("age: Received string but expected number".data <:+:
      (mkFixPrompt [.invalidUnion ["age"]
        [[.invalidType ["age"] "string" "number"
          "Expected number, received string"]] "Invalid input"]).data) ∧
    ("age: Expected number, received string".data <:+:
      (mkFixPrompt [.invalidType ["age"] "string" "number"
        "Expected number, received string"]).data) := by
  constructor
  · decide
  · decide

/-! ### Claim C4: the history buffer bound and FIFO eviction -/

theorem addMessagePair_length_le {m : Nat} {prev : List (List Message)}
    (pair : List Message) (h : prev.length ≤ m) :
    (addMessagePair m prev pair).length ≤ m := by
  simp only [addMessagePair]
  split
  · rename_i hc
    simp at hc ⊢
    omega
  · rename_i hc
    simp at hc ⊢
    omega

theorem fixLoop_prev_length {Json Out ε : Type} (cfg : GenConfig Json Out ε)
    (backend : Nat → Except ε Message) (inputStr : String)
    (exception : ZodErrorT) (response : Message) :
    ∀ (f : Nat) (st : GenState),
      st.previousMessages.length ≤ cfg.maxMessages →
      (fixLoop cfg backend inputStr exception response f
        st).2.previousMessages.length ≤ cfg.maxMessages := by
  intro f
  induction f with
  | zero =>
    intro st h
    simpa [fixLoop] using h
  | succ n ih =>
    intro st h
    rw [fixLoop]
    split
    · simpa using h
    · split
      · exact ih _ (by simpa using h)
      · split
        · exact ih _ (by simpa using h)
        · simpa using addMessagePair_length_le _ (by simpa using h)

theorem generate_prev_length {Json Out ε : Type} (cfg : GenConfig Json Out ε)
    (backend : Nat → Except ε Message) (inputStr : String) (fixTries : Nat) :
    ∀ (retries : Nat) (eh : Option (List Message)) (st : GenState),
      st.previousMessages.length ≤ cfg.maxMessages →
      (generate cfg backend inputStr fixTries retries eh
        st).2.previousMessages.length ≤ cfg.maxMessages := by
  intro retries
  induction retries with
  | zero =>
    intro eh st h
    rw [generate]
    split
    · simpa using h
    · rename_i response heqb
      split
      · simpa using h
      · rename_i j heqp
        split
        · simpa using addMessagePair_length_le _ (by simpa using h)
        · rename_i e heqo
          have hfix := fixLoop_prev_length cfg backend inputStr e response
            fixTries ⟨st.previousMessages, st.trace ++
              [initialMessages cfg inputStr eh st]⟩ (by simpa using h)
          split
          · rename_i out st2 heqf
            rw [heqf] at hfix
            simpa using hfix
          · rename_i t st2 heqf
            rw [heqf] at hfix
            simpa using hfix
          · rename_i st2 heqf
            rw [heqf] at hfix
            exact hfix
  | succ r ih =>
    intro eh st h
    rw [generate]
    split
    · simpa using h
    · rename_i response heqb
      split
      · simpa using h
      · rename_i j heqp
        split
        · simpa using addMessagePair_length_le _ (by simpa using h)
        · rename_i e heqo
          have hfix := fixLoop_prev_length cfg backend inputStr e response
            fixTries ⟨st.previousMessages, st.trace ++
              [initialMessages cfg inputStr eh st]⟩ (by simpa using h)
          split
          · rename_i out st2 heqf
            rw [heqf] at hfix
            simpa using hfix
          · rename_i t st2 heqf
            rw [heqf] at hfix
            simpa using hfix
          · rename_i st2 heqf
            rw [heqf] at hfix
            exact ih none st2 hfix

/-- Claim C4: across any `generate` call the buffer stays within
`maxMessages` provided it was within the bound before, and
`addMessagePair` is strictly FIFO: an append at the bound drops exactly
the oldest entry (the head) and keeps the rest in order, while an append
below the bound evicts nothing. -/
theorem ojjson_history_bound_claim :
    (∀ (Json Out ε : Type) (cfg : GenConfig Json Out ε)
      (backend : Nat → Except ε Message) (inputStr : String)
      (fixTries retries : Nat) (eh : Option (List Message)) (st : GenState),
      st.previousMessages.length ≤ cfg.maxMessages →
      (generate cfg backend inputStr fixTries retries eh
        st).2.previousMessages.length ≤ cfg.maxMessages) ∧
    (∀ (m : Nat) (prev : List (List Message)) (pair : List Message),
      prev.length = m → 0 < m →
      addMessagePair m prev pair = prev.tail ++ [pair]) ∧
    (∀ (m : Nat) (prev : List (List Message)) (pair : List Message),
      prev.length < m → addMessagePair m prev pair = prev ++ [pair]) := by
  refine ⟨?_, ?_, ?_⟩
  · intro Json Out ε cfg backend inputStr fixTries retries eh st h
    exact generate_prev_length cfg backend inputStr fixTries retries eh st h
  · intro m prev pair hlen hpos
    unfold addMessagePair
    rw [if_pos (by simp; omega)]
    cases prev with
    | nil => simp at hlen; omega
    | cons a as => simp
  · intro m prev pair hlt
    unfold addMessagePair
    rw [if_neg (by simp; omega)]

/-- Witness for C4: a run at the bound `maxMessages = 1` keeps the buffer
at one entry, and an append at the bound drops the previous head. -/
theorem ojjson_history_bound_claim_witness :
    ((generate
        (⟨fun s => if s = "" then none else some s,
          fun _ => Except.ok (), 1, "PROMPT", []⟩ : GenConfig String Unit Unit)
        (fun _ => .ok ⟨"system", "\x7bok\x7d"⟩) "IN" 1 0 none
        ⟨[[⟨"user", "OLD"⟩]], []⟩).2.previousMessages.length ≤ 1) ∧
    addMessagePair 1 [[⟨"user", "OLD"⟩]] [⟨"user", "NEW"⟩] =
      [[⟨"user", "NEW"⟩]] := by
  constructor
  · exact ojjson_history_bound_claim.1 String Unit Unit _ _ "IN" 1 0 none
      ⟨[[⟨"user", "OLD"⟩]], []⟩ (by decide)
  · have h := ojjson_history_bound_claim.2.1 1 [[⟨"user", "OLD"⟩]]
      [⟨"user", "NEW"⟩] (by decide) (by decide)
    simpa using h

/-! ### Claim C10: the repair prompt contains the violation list twice -/

theorem fixMessages_eq_append {Json Out ε : Type} (cfg : GenConfig Json Out ε)
    (inputStr : String) (exception : ZodErrorT) (response : Message) :
    fixMessages cfg inputStr exception response =
      (cfg.examples ++ [⟨"user", cfg.prompt⟩, ⟨"user", inputStr⟩,
        ⟨"system", extractJson response.content⟩]) ++
      [⟨"user", getErrorMessage exception ++
        (fixHeader ++ getErrorMessage exception)⟩] := by
  simp [fixMessages, mkFixPrompt]

/-- Claim C10: every message list a repair-loop iteration sends to the
backend ends in a user turn whose content is the formatted violation list,
then the fixed `...Those issues occured:` text, then the very same
violation list again — the fix prompt is concatenated onto itself. -/
theorem ojjson_fixprompt_doubled_claim :
    ∀ (Json Out ε : Type) (cfg : GenConfig Json Out ε)
      (backend : Nat → Except ε Message) (inputStr : String)
      (exception : ZodErrorT) (response : Message) (f : Nat) (st : GenState)
      (req : List Message),
      req ∈ (fixLoop cfg backend inputStr exception response f st).2.trace →
      req ∉ st.trace →
      ∃ ms, req = ms ++ [⟨"user", getErrorMessage exception ++
        (fixHeader ++ getErrorMessage exception)⟩] := by
  intro Json Out ε cfg backend inputStr exception response f
  induction f with
  | zero =>
    intro st req hmem hnot
    rw [fixLoop] at hmem
    exact absurd hmem hnot
  | succ n ih =>
    intro st req hmem hnot
    rw [fixLoop] at hmem
    split at hmem
    · simp at hmem
      rcases hmem with hmem | hmem
      · exact absurd hmem hnot
      · exact ⟨_, by rw [hmem, fixMessages_eq_append]⟩
    · split at hmem
      · by_cases hmem1 : req ∈ (⟨st.previousMessages, st.trace ++
            [fixMessages cfg inputStr exception response]⟩ : GenState).trace
        · simp at hmem1
          rcases hmem1 with hmem1 | hmem1
          · exact absurd hmem1 hnot
          · exact ⟨_, by rw [hmem1, fixMessages_eq_append]⟩
        · exact ih _ req hmem hmem1
      · split at hmem
        · by_cases hmem1 : req ∈ (⟨st.previousMessages, st.trace ++
              [fixMessages cfg inputStr exception response]⟩ : GenState).trace
          · simp at hmem1
            rcases hmem1 with hmem1 | hmem1
            · exact absurd hmem1 hnot
            · exact ⟨_, by rw [hmem1, fixMessages_eq_append]⟩
          · exact ih _ req hmem hmem1
        · simp at hmem
          rcases hmem with hmem | hmem
          · exact absurd hmem hnot
          · exact ⟨_, by rw [hmem, fixMessages_eq_append]⟩

/-! ### Concrete instances used to exercise the model -/

/-- A concrete configuration: the JSON value of a reply is its extracted
string (`jsonParse` fails exactly on an empty extraction, as `JSON.parse`
of `""` throws), and validation accepts exactly the reply `{ok}`,
rejecting anything else with one `Required`-style issue at `age`. -/
def cfgW : GenConfig String Unit Unit :=
  ⟨fun s => if s = "" then none else some s,
   fun s => if s = "\x7bok\x7d" then .ok () else
     .error [.otherIssue ["age"] "Required"],
   10, "PROMPT", []⟩

/-- A backend whose every reply extracts to parseable but invalid JSON. -/
def backendInvalid : Nat → Except Unit Message :=
  fun _ => .ok ⟨"system", "\x7bno\x7d"⟩

/-- A backend whose every reply is valid. -/
def backendOk : Nat → Except Unit Message :=
  fun _ => .ok ⟨"system", "\x7bok\x7d"⟩

/-- A backend whose first reply is invalid and whose later replies are
valid: the first repair attempt succeeds. -/
def backendFix : Nat → Except Unit Message :=
  fun n => .ok ⟨"system", if n = 0 then "\x7bno\x7d" else "\x7bok\x7d"⟩

/-- A backend whose every reply has no braces at all, so extraction yields
the empty string and `JSON.parse` throws. -/
def backendNoJson : Nat → Except Unit Message :=
  fun _ => .ok ⟨"system", "no braces"⟩

/-- A backend that always fails at the transport level. -/
def backendDown : Nat → Except Unit Message :=
  fun _ => .error ()

/-- A backend whose first reply is invalid and whose second call fails at
the transport level (inside the repair loop). -/
def backendFixDown : Nat → Except Unit Message :=
  fun n => if n = 0 then .ok ⟨"system", "\x7bno\x7d"⟩ else .error ()

/-- A configuration whose validation always fails and records the parsed
string in the issue, so distinct replies yield distinct violation sets. -/
def cfgTag : GenConfig String Unit Unit :=
  ⟨fun s => some s, fun s => .error [.otherIssue [] s], 10, "PROMPT", []⟩

/-- A backend answering `{A}` on the first call and `{B}` afterwards. -/
def backendAB : Nat → Except Unit Message :=
  fun n => .ok ⟨"system", if n = 0 then "\x7bA\x7d" else "\x7bB\x7d"⟩

/-- Witness for C10: the repair request of a concrete exhausted run ends
with the doubled violation list. -/
theorem ojjson_fixprompt_doubled_claim_witness :
    ∃ ms, fixMessages cfgW "IN" [.otherIssue ["age"] "Required"]
        ⟨"system", "\x7bno\x7d"⟩ =
      ms ++ [⟨"user", getErrorMessage [.otherIssue ["age"] "Required"] ++
        (fixHeader ++ getErrorMessage [.otherIssue ["age"] "Required"])⟩] :=
  ojjson_fixprompt_doubled_claim String Unit Unit cfgW backendInvalid "IN"
    [.otherIssue ["age"] "Required"] ⟨"system", "\x7bno\x7d"⟩ 1 ⟨[], []⟩
    (fixMessages cfgW "IN" [.otherIssue ["age"] "Required"]
      ⟨"system", "\x7bno\x7d"⟩)
    (by decide) (by decide)

/-! ### Claim C1: the retry budget -/

/-- Every reply of the given call fails conformance: either its extracted
content does not parse as JSON, or it parses and fails validation. -/
def conformanceFailing {Json Out ε : Type} (cfg : GenConfig Json Out ε)
    (backend : Nat → Except ε Message) (n : Nat) : Prop :=
  ∃ m, backend n = .ok m ∧
    ∀ j, cfg.jsonParse (extractJson m.content) = some j →
      ∃ e, cfg.outputParse j = .error e

theorem fixLoop_exhausts {Json Out ε : Type} (cfg : GenConfig Json Out ε)
    (backend : Nat → Except ε Message) (inputStr : String)
    (exception : ZodErrorT) (response : Message) :
    ∀ (f : Nat) (st : GenState),
      (∀ k, k < f → conformanceFailing cfg backend (st.trace.length + k)) →
      fixLoop cfg backend inputStr exception response f st =
        (.exhausted, ⟨st.previousMessages, st.trace ++
          List.replicate f (fixMessages cfg inputStr exception response)⟩) := by
  intro f
  induction f with
  | zero =>
    intro st h
    rw [fixLoop]
    simp
  | succ n ih =>
    intro st h
    obtain ⟨m, hb, hfail⟩ := h 0 (by omega)
    rw [Nat.add_zero] at hb
    have hshift : ∀ k, k < n → conformanceFailing cfg backend
        ((⟨st.previousMessages, st.trace ++
          [fixMessages cfg inputStr exception response]⟩ :
            GenState).trace.length + k) := by
      intro k hk
      obtain ⟨m', hb', hf'⟩ := h (k + 1) (by omega)
      refine ⟨m', ?_, hf'⟩
      convert hb' using 2
      simp
      omega
    rw [fixLoop]
    simp only [hb]
    cases hp : cfg.jsonParse (extractJson m.content) with
    | none =>
      simp only [hp]
      rw [ih _ hshift]
      simp [List.replicate_succ]
    | some j =>
      obtain ⟨e, he⟩ := hfail j hp
      simp only [hp, he]
      rw [ih _ hshift]
      simp [List.replicate_succ]

theorem conformanceFailing_of_invalid {Json Out ε : Type}
    {cfg : GenConfig Json Out ε} {backend : Nat → Except ε Message}
    (h : ∀ n, ∃ m j e, backend n = .ok m ∧
      cfg.jsonParse (extractJson m.content) = some j ∧
      cfg.outputParse j = .error e) (n : Nat) :
    conformanceFailing cfg backend n := by
  obtain ⟨m, j, e, hb, hp, ho⟩ := h n
  exact ⟨m, hb, fun j2 hj2 => ⟨e, by rw [hp] at hj2; cases hj2; exact ho⟩⟩

/-- Claim C1 (amended): with a backend whose every reply is well-formed
JSON that fails validation, `generate` with `retries = r` and
`fixTries = f` issues exactly `(r + 1) * (f + 1)` chat calls — each of
the `r + 1` rounds makes one initial call plus `f` repair calls — then
throws a ZodError, leaving the history buffer untouched. -/
theorem ojjson_retry_budget_claim :
    ∀ (Json Out ε : Type) (cfg : GenConfig Json Out ε)
      (backend : Nat → Except ε Message) (inputStr : String) (f r : Nat)
      (eh : Option (List Message)) (st : GenState),
      (∀ n, ∃ m j e, backend n = .ok m ∧
        cfg.jsonParse (extractJson m.content) = some j ∧
        cfg.outputParse j = .error e) →
      ∃ e st', generate cfg backend inputStr f r eh st =
          (.error (.zodErr e), st') ∧
        st'.trace.length = st.trace.length + (r + 1) * (f + 1) ∧
        st'.previousMessages = st.previousMessages := by
  intro Json Out ε cfg backend inputStr f r
  induction r with
  | zero =>
    intro eh st hyp
    obtain ⟨m, j, e, hb, hp, ho⟩ := hyp st.trace.length
    rw [generate]
    simp only [hb, hp, ho]
    rw [fixLoop_exhausts cfg backend inputStr e m f _
      (fun k hk => conformanceFailing_of_invalid hyp _)]
    refine ⟨e, ⟨st.previousMessages,
      (st.trace ++ [initialMessages cfg inputStr eh st]) ++
        List.replicate f (fixMessages cfg inputStr e m)⟩, rfl, ?_, rfl⟩
    simp
  | succ r ih =>
    intro eh st hyp
    obtain ⟨m, j, e, hb, hp, ho⟩ := hyp st.trace.length
    rw [generate]
    simp only [hb, hp, ho]
    rw [fixLoop_exhausts cfg backend inputStr e m f _
      (fun k hk => conformanceFailing_of_invalid hyp _)]
    obtain ⟨e2, st2, hgen, hlen, hprev⟩ := ih none ⟨st.previousMessages,
      (st.trace ++ [initialMessages cfg inputStr eh st]) ++
        List.replicate f (fixMessages cfg inputStr e m)⟩ hyp
    refine ⟨e2, st2, hgen, ?_, hprev⟩
    rw [hlen]
    have hmul : (r + 1 + 1) * (f + 1) = (r + 1) * (f + 1) + (f + 1) := by
      ring
    simp [hmul]
    omega

/-- Counterexample to C1 as stated: with an always-invalid backend and
`retries = 0`, `fixTries = 1`, the engine issues 2 chat calls, not
`(0 + 1) * 1 = 1`: the round consists of one initial call plus one
repair call. -/
theorem ojjson_retry_budget_counterexample :
    (generate cfgW backendInvalid "IN" 1 0 none
      ⟨[], []⟩).2.trace.length = 2 ∧ 2 ≠ (0 + 1) * 1 := by
  exact ⟨rfl, by decide⟩

/-- Witness for C1 (amended): with `retries = 1`, `fixTries = 1` the
always-invalid backend receives exactly `(1 + 1) * (1 + 1) = 4` calls. -/
theorem ojjson_retry_budget_claim_witness :
    ∃ e st', generate cfgW backendInvalid "IN" 1 1 none ⟨[], []⟩ =
        (.error (.zodErr e), st') ∧
      st'.trace.length = 0 + (1 + 1) * (1 + 1) ∧
      st'.previousMessages = [] :=
  ojjson_retry_budget_claim String Unit Unit cfgW backendInvalid "IN" 1 1
    none ⟨[], []⟩
    (fun _ => ⟨⟨"system", "\x7bno\x7d"⟩, "\x7bno\x7d",
      [.otherIssue ["age"] "Required"], rfl, rfl, rfl⟩)

/-! ### Claim C2: a JSON parse failure propagates instead of repairing -/

/-- Claim C2 evaluated on the code: when the backend reply has no braces,
extraction yields `""`, `JSON.parse` throws a SyntaxError, and — because
the catch rethrows anything that is not a `zod.ZodError` — `generate`
with `retries = 2` and `fixTries = 1` throws immediately after a single
chat call, with no repair attempt and no outer retry. -/
theorem ojjson_parse_error_claim :
    (generate cfgW backendNoJson "IN" 1 2 none ⟨[], []⟩).1 =
      .error .parseErr ∧
    (generate cfgW backendNoJson "IN" 1 2 none ⟨[], []⟩).2.trace.length = 1 ∧
    (generate cfgW backendNoJson "IN" 1 2 none ⟨[], []⟩).2.previousMessages
      = [] :=
  ⟨rfl, rfl, rfl⟩

/-! ### Claim C3: successful results passed validation -/

theorem fixLoop_success {Json Out ε : Type} (cfg : GenConfig Json Out ε)
    (backend : Nat → Except ε Message) (inputStr : String)
    (exception : ZodErrorT) (response : Message) :
    ∀ (f : Nat) (st : GenState) (out : Out) (st' : GenState),
      fixLoop cfg backend inputStr exception response f st =
        (.success out, st') →
      st'.previousMessages = addMessagePair cfg.maxMessages
        st.previousMessages [⟨"user", inputStr⟩,
          ⟨"system", extractJson response.content⟩] ∧
      ∃ content j, cfg.jsonParse (extractJson content) = some j ∧
        cfg.outputParse j = .ok out := by
  intro f
  induction f with
  | zero =>
    intro st out st' h
    rw [fixLoop] at h
    simp at h
  | succ n ih =>
    intro st out st' h
    rw [fixLoop] at h
    split at h
    · simp at h
    · rename_i retry heqb
      split at h
      · exact ih ⟨st.previousMessages, st.trace ++
          [fixMessages cfg inputStr exception response]⟩ out st' h
      · rename_i j heqp
        split at h
        · exact ih ⟨st.previousMessages, st.trace ++
            [fixMessages cfg inputStr exception response]⟩ out st' h
        · rename_i out2 heqo
          simp at h
          obtain ⟨hout, hst⟩ := h
          subst hout
          rw [← hst]
          exact ⟨rfl, retry.content, j, heqp, heqo⟩

/-- Claim C3: whenever `generate` returns successfully, the returned value
is one produced by `this.output.parse` on the JSON parsed from an
extracted reply — every success passed validation against the Output
schema. -/
theorem ojjson_validity_claim :
    ∀ (Json Out ε : Type) (cfg : GenConfig Json Out ε)
      (backend : Nat → Except ε Message) (inputStr : String)
      (fixTries retries : Nat) (eh : Option (List Message))
      (st : GenState) (out : Out) (st' : GenState),
      generate cfg backend inputStr fixTries retries eh st = (.ok out, st') →
      ∃ content j, cfg.jsonParse (extractJson content) = some j ∧
        cfg.outputParse j = .ok out := by
  intro Json Out ε cfg backend inputStr fixTries retries
  induction retries with
  | zero =>
    intro eh st out st' h
    rw [generate] at h
    split at h
    · simp at h
    · rename_i response heqb
      split at h
      · simp at h
      · rename_i j heqp
        split at h
        · rename_i out2 heqo
          simp at h
          obtain ⟨hout, hst⟩ := h
          subst hout
          exact ⟨response.content, j, heqp, heqo⟩
        · rename_i e heqo
          split at h
          · rename_i out2 st2 heqf
            simp at h
            obtain ⟨hout, hst⟩ := h
            subst hout
            exact (fixLoop_success cfg backend inputStr e response
              fixTries _ _ _ heqf).2
          · simp at h
          · simp at h
  | succ r ih =>
    intro eh st out st' h
    rw [generate] at h
    split at h
    · simp at h
    · rename_i response heqb
      split at h
      · simp at h
      · rename_i j heqp
        split at h
        · rename_i out2 heqo
          simp at h
          obtain ⟨hout, hst⟩ := h
          subst hout
          exact ⟨response.content, j, heqp, heqo⟩
        · rename_i e heqo
          split at h
          · rename_i out2 st2 heqf
            simp at h
            obtain ⟨hout, hst⟩ := h
            subst hout
            exact (fixLoop_success cfg backend inputStr e response
              fixTries _ _ _ heqf).2
          · simp at h
          · rename_i st2 heqf
            exact ih none st2 out st' h

/-- Witness for C3: a run whose first reply is valid returns a value that
validated. -/
theorem ojjson_validity_claim_witness :
    ∃ content j, cfgW.jsonParse (extractJson content) = some j ∧
      cfgW.outputParse j = .ok () :=
  ojjson_validity_claim String Unit Unit cfgW backendOk "IN" 1 2 none
    ⟨[], []⟩ ()
    ((generate cfgW backendOk "IN" 1 2 none ⟨[], []⟩).2) (by rfl)

/-! ### Claim C6: which error is surfaced on exhaustion -/

/-- Claim C6 (amended): when `retries = 0` and every repair attempt fails
conformance, `generate` rethrows the validation error of the round's
INITIAL reply; the violation sets produced by the repair attempts are
discarded by the repair loop's bare `catch`. -/
theorem ojjson_exhaustion_error_claim :
    ∀ (Json Out ε : Type) (cfg : GenConfig Json Out ε)
      (backend : Nat → Except ε Message) (inputStr : String) (f : Nat)
      (eh : Option (List Message)) (st : GenState) (m : Message)
      (j : Json) (e : ZodErrorT),
      backend st.trace.length = .ok m →
      cfg.jsonParse (extractJson m.content) = some j →
      cfg.outputParse j = .error e →
      (∀ k, k < f → conformanceFailing cfg backend
        (st.trace.length + 1 + k)) →
      ∃ st', generate cfg backend inputStr f 0 eh st =
        (.error (.zodErr e), st') := by
  intro Json Out ε cfg backend inputStr f eh st m j e hb hp ho hfix
  rw [generate]
  simp only [hb, hp, ho]
  rw [fixLoop_exhausts cfg backend inputStr e m f _ (by
    intro k hk
    have hh := hfix k hk
    convert hh using 2
    simp)]
  exact ⟨_, rfl⟩

/-- Counterexample to C6 as stated: with replies `{A}` then `{B}` under a
validator that rejects everything and records the reply in the issue,
the error thrown at exhaustion carries the violation set of the FIRST
reply, not the violation set of the last repair attempt (`{B}`), even
though that later set was produced and differs. -/
theorem ojjson_exhaustion_error_counterexample :
    (generate cfgTag backendAB "IN" 1 0 none ⟨[], []⟩).1 =
      .error (.zodErr [.otherIssue [] "\x7bA\x7d"]) ∧
    backendAB 1 = .ok ⟨"system", "\x7bB\x7d"⟩ ∧
    cfgTag.outputParse "\x7bB\x7d" =
      .error [.otherIssue [] "\x7bB\x7d"] ∧
    [ZodIssue.otherIssue [] "\x7bA\x7d"] ≠
      [ZodIssue.otherIssue [] "\x7bB\x7d"] := by
  refine ⟨rfl, rfl, rfl, ?_⟩
  simp

/-- Witness for C6 (amended): the concrete `{A}` then `{B}` run surfaces
the `{A}` violation set. -/
theorem ojjson_exhaustion_error_claim_witness :
    ∃ st', generate cfgTag backendAB "IN" 1 0 none ⟨[], []⟩ =
      (.error (.zodErr [.otherIssue [] "\x7bA\x7d"]), st') :=
  ojjson_exhaustion_error_claim String Unit Unit cfgTag backendAB "IN" 1
    none ⟨[], []⟩ ⟨"system", "\x7bA\x7d"⟩ "\x7bA\x7d"
    [.otherIssue [] "\x7bA\x7d"] rfl rfl rfl
    (fun k hk => by
      have hk0 : k = 0 := by omega
      subst hk0
      exact ⟨⟨"system", "\x7bB\x7d"⟩, rfl, fun j2 hj2 =>
        ⟨[.otherIssue [] "\x7bB\x7d"], by cases hj2; rfl⟩⟩)

/-! ### Claim C7: history after a successful repair -/

/-- Claim C7: when a repair-loop attempt succeeds, the history entry
appended to the buffer pairs the serialized original input with the
EXTRACTED content of the ORIGINAL rejected reply (not the corrected
reply), and the value returned to the caller is the corrected output
that passed validation. -/
theorem ojjson_repair_history_claim :
    (∀ (Json Out ε : Type) (cfg : GenConfig Json Out ε)
      (backend : Nat → Except ε Message) (inputStr : String)
      (exception : ZodErrorT) (response : Message) (f : Nat)
      (st : GenState) (out : Out) (st' : GenState),
      fixLoop cfg backend inputStr exception response f st =
        (.success out, st') →
      st'.previousMessages = addMessagePair cfg.maxMessages
        st.previousMessages [⟨"user", inputStr⟩,
          ⟨"system", extractJson response.content⟩] ∧
      ∃ j, cfg.outputParse j = .ok out) ∧
    (∀ (Json Out ε : Type) (cfg : GenConfig Json Out ε)
      (backend : Nat → Except ε Message) (inputStr : String)
      (f r : Nat) (eh : Option (List Message)) (st : GenState)
      (m : Message) (j : Json) (e : ZodErrorT) (out : Out)
      (st' : GenState),
      backend st.trace.length = .ok m →
      cfg.jsonParse (extractJson m.content) = some j →
      cfg.outputParse j = .error e →
      fixLoop cfg backend inputStr e m f ⟨st.previousMessages,
        st.trace ++ [initialMessages cfg inputStr eh st]⟩ =
        (.success out, st') →
      generate cfg backend inputStr f r eh st = (.ok out, st')) := by
  constructor
  · intro Json Out ε cfg backend inputStr exception response f st out st' h
    obtain ⟨h1, _, j, _, ho⟩ := fixLoop_success cfg backend inputStr
      exception response f st out st' h
    exact ⟨h1, j, ho⟩
  · intro Json Out ε cfg backend inputStr f r eh st m j e out st'
      hb hp ho hfix
    rw [generate]
    simp only [hb, hp, ho, hfix]

/-- Witness for C7: a run whose single repair attempt succeeds returns the
corrected value while the buffer records the original rejected reply. -/
theorem ojjson_repair_history_claim_witness :
    (generate cfgW backendFix "IN" 1 2 none ⟨[], []⟩ =
      (.ok (), (fixLoop cfgW backendFix "IN"
        [.otherIssue ["age"] "Required"] ⟨"system", "\x7bno\x7d"⟩ 1
        ⟨[], [initialMessages cfgW "IN" none ⟨[], []⟩]⟩).2)) ∧
    (fixLoop cfgW backendFix "IN" [.otherIssue ["age"] "Required"]
      ⟨"system", "\x7bno\x7d"⟩ 1
      ⟨[], [initialMessages cfgW "IN" none ⟨[], []⟩]⟩).2.previousMessages =
      [[⟨"user", "IN"⟩, ⟨"system", "\x7bno\x7d"⟩]] := by
  constructor
  · exact ojjson_repair_history_claim.2 String Unit Unit cfgW backendFix
      "IN" 1 2 none ⟨[], []⟩ ⟨"system", "\x7bno\x7d"⟩ "\x7bno\x7d"
      [.otherIssue ["age"] "Required"] ()
      ((fixLoop cfgW backendFix "IN" [.otherIssue ["age"] "Required"]
        ⟨"system", "\x7bno\x7d"⟩ 1
        ⟨[], [initialMessages cfgW "IN" none ⟨[], []⟩]⟩).2)
      rfl rfl rfl (by rfl)
  · have h := (ojjson_repair_history_claim.1 String Unit Unit cfgW
      backendFix "IN" [.otherIssue ["age"] "Required"]
      ⟨"system", "\x7bno\x7d"⟩ 1
      ⟨[], [initialMessages cfgW "IN" none ⟨[], []⟩]⟩ ()
      ((fixLoop cfgW backendFix "IN" [.otherIssue ["age"] "Required"]
        ⟨"system", "\x7bno\x7d"⟩ 1
        ⟨[], [initialMessages cfgW "IN" none ⟨[], []⟩]⟩).2)
      (by rfl)).1
    rw [h]
    rfl

/-! ### Claim C8: transport errors propagate untouched -/

theorem fixLoop_transport {Json Out ε : Type} (cfg : GenConfig Json Out ε)
    (backend : Nat → Except ε Message) (inputStr : String)
    (exception : ZodErrorT) (response : Message) :
    ∀ (k f : Nat) (st : GenState) (t : ε),
      k < f →
      (∀ i, i < k → conformanceFailing cfg backend (st.trace.length + i)) →
      backend (st.trace.length + k) = .error t →
      fixLoop cfg backend inputStr exception response f st =
        (.transport t, ⟨st.previousMessages, st.trace ++
          List.replicate (k + 1)
            (fixMessages cfg inputStr exception response)⟩) := by
  intro k
  induction k with
  | zero =>
    intro f st t hkf hfail hb
    rw [Nat.add_zero] at hb
    cases f with
    | zero => omega
    | succ n =>
      rw [fixLoop]
      simp only [hb]
      simp [List.replicate_succ]
  | succ kk ih =>
    intro f st t hkf hfail hb
    cases f with
    | zero => omega
    | succ n =>
      obtain ⟨m, hbm, hfailm⟩ := hfail 0 (by omega)
      rw [Nat.add_zero] at hbm
      have hshift : ∀ i, i < kk → conformanceFailing cfg backend
          ((st.trace ++ [fixMessages cfg inputStr exception response]).length
            + i) := by
        intro i hi
        have hh := hfail (i + 1) (by omega)
        have hidx : st.trace.length + (i + 1) =
            (st.trace ++
              [fixMessages cfg inputStr exception response]).length + i := by
          simp only [List.length_append, List.length_cons, List.length_nil]
          omega
        rw [hidx] at hh
        exact hh
      have hbt : backend ((st.trace ++
          [fixMessages cfg inputStr exception response]).length + kk) =
          .error t := by
        have hidx : st.trace.length + (kk + 1) =
            (st.trace ++
              [fixMessages cfg inputStr exception response]).length + kk := by
          simp only [List.length_append, List.length_cons, List.length_nil]
          omega
        rw [hidx] at hb
        exact hb
      rw [fixLoop]
      simp only [hbm]
      cases hp : cfg.jsonParse (extractJson m.content) with
      | none =>
        simp only [hp]
        rw [ih n ⟨st.previousMessages, st.trace ++
            [fixMessages cfg inputStr exception response]⟩ t (by omega)
          hshift hbt]
        simp [List.replicate_succ]
      | some j =>
        obtain ⟨e2, he2⟩ := hfailm j hp
        simp only [hp, he2]
        rw [ih n ⟨st.previousMessages, st.trace ++
            [fixMessages cfg inputStr exception response]⟩ t (by omega)
          hshift hbt]
        simp [List.replicate_succ]

/-- Claim C8: an error thrown by the adapter's `chat` propagates out of
`generate` at once — whether on the initial send (first conjunct) or on
any round-trip inside the repair loop (second conjunct) — with the
history buffer untouched; the trace grows only by the calls actually
made, independently of the remaining `retries`/`fixTries` budget, so no
budget is consumed by a transport failure. -/
theorem ojjson_transport_propagation_claim :
    (∀ (Json Out ε : Type) (cfg : GenConfig Json Out ε)
      (backend : Nat → Except ε Message) (inputStr : String)
      (f r : Nat) (eh : Option (List Message)) (st : GenState) (t : ε),
      backend st.trace.length = .error t →
      generate cfg backend inputStr f r eh st =
        (.error (.transportErr t), ⟨st.previousMessages,
          st.trace ++ [initialMessages cfg inputStr eh st]⟩)) ∧
    (∀ (Json Out ε : Type) (cfg : GenConfig Json Out ε)
      (backend : Nat → Except ε Message) (inputStr : String)
      (f r k : Nat) (eh : Option (List Message)) (st : GenState)
      (m : Message) (j : Json) (e : ZodErrorT) (t : ε),
      backend st.trace.length = .ok m →
      cfg.jsonParse (extractJson m.content) = some j →
      cfg.outputParse j = .error e →
      k < f →
      (∀ i, i < k → conformanceFailing cfg backend
        (st.trace.length + 1 + i)) →
      backend (st.trace.length + 1 + k) = .error t →
      generate cfg backend inputStr f r eh st =
        (.error (.transportErr t), ⟨st.previousMessages,
          st.trace ++ [initialMessages cfg inputStr eh st] ++
            List.replicate (k + 1) (fixMessages cfg inputStr e m)⟩)) := by
  constructor
  · intro Json Out ε cfg backend inputStr f r eh st t hb
    rw [generate]
    simp only [hb]
  · intro Json Out ε cfg backend inputStr f r k eh st m j e t
      hb hp ho hkf hfail hbt
    have hshift : ∀ i, i < k → conformanceFailing cfg backend
        ((st.trace ++ [initialMessages cfg inputStr eh st]).length + i) := by
      intro i hi
      have hh := hfail i hi
      have hidx : st.trace.length + 1 + i =
          (st.trace ++ [initialMessages cfg inputStr eh st]).length + i := by
        simp only [List.length_append, List.length_cons, List.length_nil]
      rw [hidx] at hh
      exact hh
    have hbt2 : backend ((st.trace ++
        [initialMessages cfg inputStr eh st]).length + k) = .error t := by
      have hidx : st.trace.length + 1 + k =
          (st.trace ++ [initialMessages cfg inputStr eh st]).length + k := by
        simp only [List.length_append, List.length_cons, List.length_nil]
      rw [hidx] at hbt
      exact hbt
    rw [generate]
    simp only [hb, hp, ho]
    rw [fixLoop_transport cfg backend inputStr e m k f
      ⟨st.previousMessages, st.trace ++
        [initialMessages cfg inputStr eh st]⟩ t hkf hshift hbt2]

/-- Witness for C8: a transport failure on the initial send, and one on
the first repair round-trip, each propagate with the buffer untouched. -/
theorem ojjson_transport_propagation_claim_witness :
    generate cfgW backendDown "IN" 1 2 none ⟨[], []⟩ =
      (.error (.transportErr ()), ⟨[],
        [] ++ [initialMessages cfgW "IN" none ⟨[], []⟩]⟩) ∧
    generate cfgW backendFixDown "IN" 1 2 none ⟨[], []⟩ =
      (.error (.transportErr ()), ⟨[],
        [] ++ [initialMessages cfgW "IN" none ⟨[], []⟩] ++
          List.replicate 1 (fixMessages cfgW "IN"
            [.otherIssue ["age"] "Required"] ⟨"system", "\x7bno\x7d"⟩)⟩) := by
  constructor
  · exact ojjson_transport_propagation_claim.1 String Unit Unit cfgW
      backendDown "IN" 1 2 none ⟨[], []⟩ () rfl
  · exact ojjson_transport_propagation_claim.2 String Unit Unit cfgW
      backendFixDown "IN" 1 2 0 none ⟨[], []⟩ ⟨"system", "\x7bno\x7d"⟩
      "\x7bno\x7d" [.otherIssue ["age"] "Required"] () rfl rfl rfl
      (by omega) (fun i hi => absurd hi (Nat.not_lt_zero i)) rfl
